import Mathlib

/-!
Verification of the line-editing core of `rust-cli-demo`.

The repository has two copies of the same per-byte editor loop: the free
loop in `src/main.rs` (`main`) and the method `Repl::get_line` in
`src/repl.rs`.  Their byte-dispatch logic is identical; we embed it once.

Modelling choices:
* a character is its Unicode scalar value, a `Nat`; the line buffer is a
  `List Nat` of characters (the Rust `String` indexed by characters);
* an input byte is a `Nat` (the Rust `u8` read into `buf[0]`);
* terminal output and flushing are not modelled (the claims below are about
  buffer, cursor, history and decoder state);
* the injected line processor of `Repl` (field `process_line`, type
  `ProcessFunc`) is modelled by a log `processed` recording the arguments
  of every invocation; the source never invokes it, so no branch of the
  embedded transition touches the log;
* the `break` statements of the loop set a `done` flag; `run` stops
  consuming input once `done` is set, as the loop stops reading.
-/

namespace RustCliDemo

/-- `enum InputState` from `src/main.rs` / `src/repl.rs`. -/
inductive InputState where
  | Normal
  | Escape
  | BracketedEscape
deriving DecidableEq, Repr

/-- The mutable state of the editor loop: the fields of `struct Repl` in
`src/repl.rs` (equally the local variables of `main` in `src/main.rs`),
plus the instrumentation fields `processed` and `done` described above. -/
structure ReplState where
  line : List Nat
  cursor_pos : Nat
  lines : List (List Nat)
  lines_pos : Nat
  input_state : InputState
  escape_buffer : List Nat
  processed : List (List Nat)
  done : Bool
deriving DecidableEq, Repr

/-- The initial state built by `Repl::new` (equally the initialisation at
the top of `main`): empty buffer, empty history, `Normal` decoder state. -/
def initState : ReplState :=
  { line := [], cursor_pos := 0, lines := [], lines_pos := 0,
    input_state := InputState.Normal, escape_buffer := [],
    processed := [], done := false }

/-- `char::is_ascii_graphic` on a Unicode scalar value. -/
def is_ascii_graphic (c : Nat) : Bool :=
  0x21 ≤ c && c ≤ 0x7E

/-- `char::is_whitespace` restricted to scalar values below 0x80, the only
ones the loop can produce (see `decodeSingleByte`): the ASCII members of
the Unicode White_Space property. -/
def is_whitespace (c : Nat) : Bool :=
  c == 0x09 || c == 0x0A || c == 0x0B || c == 0x0C || c == 0x0D || c == 0x20

/-- `str::from_utf8(&[c]).ok().and_then(|s| s.chars().next())`: decoding a
single byte as UTF-8 succeeds exactly for bytes below 0x80 and yields the
character with that scalar value; bytes 0x80..=0xFF (in particular every
byte of a multi-byte UTF-8 sequence) are not valid UTF-8 on their own. -/
def decodeSingleByte (c : Nat) : Option Nat :=
  if c < 0x80 then some c else none

/-- The insertability test of the final match arm:
`char_byte.is_ascii_graphic() || (char_byte.is_whitespace() && char_byte != '\t')`. -/
def insertableChar (c : Nat) : Bool :=
  is_ascii_graphic c || (is_whitespace c && c != 0x09)

/-- The byte index the interior-insert path computes:
`for (idx, _) in line.char_indices().take(cursor_pos) { byte_idx = idx }`
leaves `byte_idx` at the byte offset of character `cursor_pos - 1` (or 0
when `cursor_pos = 0`, matching Nat subtraction).  At a character boundary
a byte offset addresses the character position in front of it, so in the
character-list model the Rust `line.insert(byte_idx, c)` inserts at
character index `cursor_pos - 1`. -/
def insertByteIdx (cursor_pos : Nat) : Nat :=
  cursor_pos - 1

/-- The byte index the backspace path computes: the loop over
`line.char_indices()` breaks at `current_char_count == cursor_pos - 1`,
i.e. at the byte offset of character `cursor_pos - 1`; `line.remove` then
removes that character.  (Under the cursor invariant proved below,
`cursor_pos - 1 < line.length`, so the loop always finds the index.) -/
def removeCharIdx (cursor_pos : Nat) : Nat :=
  cursor_pos - 1

/-- One iteration of the editor loop on one input byte `c`: the
`match input_state { ... }` dispatch shared by `main` (src/main.rs) and
`Repl::get_line` (src/repl.rs).  History indexing uses `getD`; the indices
are in bounds for every reachable state (the `lines_pos` invariant proved
below), matching the panic-free behaviour of the source there. -/
def step (s : ReplState) (c : Nat) : ReplState :=
  match s.input_state with
  | InputState.Escape =>
    -- escape_buffer.push(c); then match on c
    let s := { s with escape_buffer := s.escape_buffer ++ [c] }
    if c = 0x5B then
      { s with input_state := InputState.BracketedEscape }
    else
      { s with input_state := InputState.Normal, escape_buffer := [] }
  | InputState.BracketedEscape =>
    -- escape_buffer.push(c); then match on c
    let s := { s with escape_buffer := s.escape_buffer ++ [c] }
    if c = 0x41 then
      -- Up
      let s :=
        if 0 < s.lines.length ∧ 0 < s.lines_pos then
          { s with line := s.lines.getD (s.lines_pos - 1) [],
                   lines_pos := s.lines_pos - 1, cursor_pos := 0 }
        else s
      { s with input_state := InputState.Normal, escape_buffer := [] }
    else if c = 0x42 then
      -- Down
      let s :=
        if 0 < s.lines.length ∧ s.lines_pos + 1 < s.lines.length then
          { s with lines_pos := s.lines_pos + 1,
                   line := s.lines.getD (s.lines_pos + 1) [], cursor_pos := 0 }
        else s
      { s with input_state := InputState.Normal, escape_buffer := [] }
    else if c = 0x43 then
      -- Right
      let s :=
        if s.cursor_pos < s.line.length then
          { s with cursor_pos := s.cursor_pos + 1 }
        else s
      { s with input_state := InputState.Normal, escape_buffer := [] }
    else if c = 0x44 then
      -- Left
      let s :=
        if 0 < s.cursor_pos then
          { s with cursor_pos := s.cursor_pos - 1 }
        else s
      { s with input_state := InputState.Normal, escape_buffer := [] }
    else
      -- `_ => {}`: no state change beyond the push above
      s
  | InputState.Normal =>
    if c = 0x1B then
      { s with input_state := InputState.Escape, escape_buffer := [] }
    else if c = 0x71 ∨ c = 0x03 then
      -- `b'q' | b'\x03' => break`
      { s with done := true }
    else if c = 0x0A ∨ c = 0x0D then
      -- commit: lines.push(line.clone()); lines_pos += 1; line.clear(); cursor_pos = 0
      { s with lines := s.lines ++ [s.line], lines_pos := s.lines_pos + 1,
               line := [], cursor_pos := 0 }
    else if c = 0x08 ∨ c = 0x7F then
      -- backspace
      if 0 < s.cursor_pos then
        { s with line := s.line.eraseIdx (removeCharIdx s.cursor_pos),
                 cursor_pos := s.cursor_pos - 1 }
      else s
    else
      match decodeSingleByte c with
      | none => s
      | some ch =>
        if insertableChar ch then
          if s.cursor_pos = s.line.length then
            -- append at end: line.push(char_byte)
            { s with line := s.line ++ [ch], cursor_pos := s.cursor_pos + 1 }
          else
            -- interior insert: line.insert(byte_idx, char_byte)
            { s with line := s.line.insertIdx (insertByteIdx s.cursor_pos) ch,
                     cursor_pos := s.cursor_pos + 1 }
        else s

/-- Run the editor loop over a list of input bytes; a `break` (the `done`
flag) stops the loop, so the remaining bytes are not consumed. -/
def run (s : ReplState) (bs : List Nat) : ReplState :=
  match bs with
  | [] => s
  | c :: cs => if s.done then s else run (step s c) cs

/-- One loop iteration at end-of-input: `tmanager.read` returns `Ok(0)`
without touching `buf`, the `Ok(n) => n` arm discards the count `n`, and
the freshly zeroed `buf = [0u8; 1]` makes the loop process byte 0x00. -/
def stepEof (s : ReplState) : ReplState :=
  step s 0

/-! ### Helper lemmas -/

theorem run_of_pred {P : ReplState → Prop} (hstep : ∀ s c, P s → P (step s c)) :
    ∀ (bs : List Nat) (s : ReplState), P s → P (run s bs) := by
  intro bs
  induction bs with
  | nil => intro s h; exact h
  | cons c cs ih =>
      intro s h
      rw [run]
      by_cases hd : s.done = true
      · simpa [hd] using h
      · simpa [hd] using ih _ (hstep _ _ h)

theorem cursor_inv_step (s : ReplState) (c : Nat)
    (h : s.cursor_pos ≤ s.line.length) :
    (step s c).cursor_pos ≤ (step s c).line.length := by
  obtain ⟨line, cp, lines, lp, ist, eb, pr, dn⟩ := s
  simp only at h
  cases ist <;> simp only [step, removeCharIdx, insertByteIdx] <;> repeat' split
  all_goals simp_all
  all_goals
    first
      | omega
      | (rw [List.length_insertIdx _ _ (by omega)]; omega)
      | (have hlen := List.length_eraseIdx_add_one
            (show cp - 1 < line.length by omega)
         omega)

theorem lines_inv_step (s : ReplState) (c : Nat)
    (h : s.lines_pos ≤ s.lines.length) :
    (step s c).lines_pos ≤ (step s c).lines.length := by
  obtain ⟨line, cp, lines, lp, ist, eb, pr, dn⟩ := s
  simp only at h
  cases ist <;> simp only [step, removeCharIdx, insertByteIdx] <;> repeat' split
  all_goals simp_all
  all_goals omega

theorem step_preserves_done (s : ReplState) (c : Nat)
    (hc : c ≠ 0x71) (hc3 : c ≠ 0x03) :
    (step s c).done = s.done := by
  obtain ⟨line, cp, lines, lp, ist, eb, pr, dn⟩ := s
  cases ist <;> simp only [step, removeCharIdx, insertByteIdx] <;> repeat' split
  all_goals simp_all

/-! ### Claim theorems -/

/-- Claim C1.  The claim states that an insertable character arriving in
`Normal` state with cursor position `p` is inserted at character index `p`.
Evaluating the code at the failing input — the reachable state with buffer
"ab" (`[0x61, 0x62]`) and cursor position 1, obtained by typing `a`, `b`,
then Left — shows that inserting `x` (byte 0x78) yields "xab"
(`[0x78, 0x61, 0x62]`), i.e. the character lands at index 0, not at the
claimed index 1 (which would give "axb"); only `cursor_pos` behaves as
claimed.  The interior-insert path computes the byte offset of character
`cursor_pos - 1`, not `cursor_pos`. -/
theorem C1_insert_at_cursor_eval :
    (run initState [0x61, 0x62, 0x1B, 0x5B, 0x44]).line = [0x61, 0x62] ∧
    (run initState [0x61, 0x62, 0x1B, 0x5B, 0x44]).cursor_pos = 1 ∧
    (run initState [0x61, 0x62, 0x1B, 0x5B, 0x44]).input_state = InputState.Normal ∧
    (run initState [0x61, 0x62, 0x1B, 0x5B, 0x44, 0x78]).line = [0x78, 0x61, 0x62] ∧
    (run initState [0x61, 0x62, 0x1B, 0x5B, 0x44, 0x78]).line ≠ [0x61, 0x78, 0x62] ∧
    (run initState [0x61, 0x62, 0x1B, 0x5B, 0x44, 0x78]).cursor_pos = 2 := by
  decide

/-- Claim C5.  The claim states that inserting a character at position `p`
and then backspacing once restores the pre-insertion buffer and cursor.
Evaluating the code at the failing input — buffer "ab", cursor 1 (typed
`a`, `b`, Left), insert `x`, then backspace — yields "xb" with cursor 1
instead of the original "ab": the insert lands at index 0 (claim C1's
off-by-one) while the backspace removes the character at index
`cursor_pos - 1 = 1`, which is not the inserted one. -/
theorem C5_insert_delete_roundtrip_eval :
    (run initState [0x61, 0x62, 0x1B, 0x5B, 0x44, 0x78, 0x7F]).line = [0x78, 0x62] ∧
    (run initState [0x61, 0x62, 0x1B, 0x5B, 0x44, 0x78, 0x7F]).line ≠ [0x61, 0x62] ∧
    (run initState [0x61, 0x62, 0x1B, 0x5B, 0x44, 0x78, 0x7F]).cursor_pos = 1 := by
  decide

/-- Claim C2, counterexample.  Typing "hi" and pressing Enter commits the
line: it is appended to history (`lines`), yet the injected line processor
is never invoked — the invocation log `processed` stays empty, while the
claim requires the processor to have received the committed line. -/
theorem C2_processor_not_invoked_cex :
    (run initState [0x68, 0x69, 0x0D]).lines = [[0x68, 0x69]] ∧
    (run initState [0x68, 0x69, 0x0D]).processed = [] ∧
    (run initState [0x68, 0x69, 0x0D]).processed ≠ [[0x68, 0x69]] := by
  decide

/-- Claim C2, amended.  On every commit (Enter in `Normal` state) the line
is appended to history, `lines_pos` is incremented, and the buffer and
cursor are cleared; the injected line processor is never invoked (the
`processed` log is unchanged in the resulting state), so no processing
error can abort the loop. -/
theorem C2_commit_appends_without_processing (s : ReplState) (c : Nat)
    (hstate : s.input_state = InputState.Normal) (hc : c = 0x0A ∨ c = 0x0D) :
    step s c = { s with lines := s.lines ++ [s.line], lines_pos := s.lines_pos + 1,
                        line := [], cursor_pos := 0 } := by
  obtain ⟨line, cp, lines, lp, ist, eb, pr, dn⟩ := s
  simp only at hstate
  subst hstate
  rcases hc with hc | hc <;> subst hc <;> simp [step]

/-- Claim C2, witness for the amended theorem at the concrete commit of
the line "hi". -/
theorem C2_commit_appends_without_processing_witness :
    step (run initState [0x68, 0x69]) 0x0D =
      { run initState [0x68, 0x69] with
          lines := (run initState [0x68, 0x69]).lines ++ [(run initState [0x68, 0x69]).line],
          lines_pos := (run initState [0x68, 0x69]).lines_pos + 1,
          line := [], cursor_pos := 0 } :=
  C2_commit_appends_without_processing (run initState [0x68, 0x69]) 0x0D
    (by decide) (Or.inr rfl)

/-- Claim C3, counterexample.  In the reachable `BracketedEscape` state
(after ESC, `[`), an unrecognized trailing byte `x` (0x78) leaves the
decoder in `BracketedEscape` — it does not return to `Normal` — and the
escape accumulator keeps both the `[` and the `x` instead of being
cleared. -/
theorem C3_unrecognized_escape_tail_cex :
    (run initState [0x1B, 0x5B]).input_state = InputState.BracketedEscape ∧
    (step (run initState [0x1B, 0x5B]) 0x78).input_state = InputState.BracketedEscape ∧
    (step (run initState [0x1B, 0x5B]) 0x78).input_state ≠ InputState.Normal ∧
    (step (run initState [0x1B, 0x5B]) 0x78).escape_buffer = [0x5B, 0x78] := by
  decide

/-- Claim C3, amended.  In `BracketedEscape` state a byte other than
`A`/`B`/`C`/`D` produces no edit action, but the decoder stays in
`BracketedEscape` and the byte is appended to the escape accumulator;
consequently `n` consecutive unrecognized bytes grow the accumulator by
exactly `n`, so it is not bounded by the bytes of one escape sequence. -/
theorem C3_unrecognized_escape_tail_accumulates (s : ReplState) (c : Nat)
    (hstate : s.input_state = InputState.BracketedEscape)
    (hA : c ≠ 0x41) (hB : c ≠ 0x42) (hC : c ≠ 0x43) (hD : c ≠ 0x44) :
    step s c = { s with escape_buffer := s.escape_buffer ++ [c] } ∧
    ∀ n : Nat, ((fun t => step t c)^[n] s).escape_buffer.length
        = s.escape_buffer.length + n := by
  have hstep : ∀ t : ReplState, t.input_state = InputState.BracketedEscape →
      step t c = { t with escape_buffer := t.escape_buffer ++ [c] } := by
    intro t ht
    obtain ⟨line, cp, lines, lp, ist, eb, pr, dn⟩ := t
    simp only at ht
    subst ht
    simp [step, hA, hB, hC, hD]
  have key : ∀ n : Nat,
      ((fun t => step t c)^[n] s).input_state = InputState.BracketedEscape ∧
      ((fun t => step t c)^[n] s).escape_buffer.length
        = s.escape_buffer.length + n := by
    intro n
    induction n with
    | zero => exact ⟨hstate, rfl⟩
    | succ n ih =>
        simp only [Function.iterate_succ_apply']
        rw [hstep _ ih.1]
        refine ⟨ih.1, ?_⟩
        simp [ih.2]
        omega
  exact ⟨hstep s hstate, fun n => (key n).2⟩

/-- Claim C3, witness for the amended theorem: in the reachable
`BracketedEscape` state, byte 0x78 is merely accumulated. -/
theorem C3_unrecognized_escape_tail_accumulates_witness :
    step (run initState [0x1B, 0x5B]) 0x78 =
      { run initState [0x1B, 0x5B] with
          escape_buffer := (run initState [0x1B, 0x5B]).escape_buffer ++ [0x78] } :=
  (C3_unrecognized_escape_tail_accumulates (run initState [0x1B, 0x5B]) 0x78
    (by decide) (by decide) (by decide) (by decide) (by decide)).1

/-- Claim C4, counterexample.  Byte 0x03 (ETX) received in the reachable
`BracketedEscape` decoder state does not end the editor loop: the `done`
flag stays `false` (in that state 0x03 falls into the `_ => {}` arm of the
match and is merely accumulated). -/
theorem C4_etx_bracketed_cex :
    (run initState [0x1B, 0x5B]).input_state = InputState.BracketedEscape ∧
    (step (run initState [0x1B, 0x5B]) 0x03).done = false ∧
    (step (run initState [0x1B, 0x5B]) 0x03).input_state
      = InputState.BracketedEscape := by
  decide

/-- Claim C4, amended.  Byte 0x03 ends the editor loop only in `Normal`
decoder state, and there it touches nothing but the `done` flag — in
particular the uncommitted buffer is not appended to history.  In `Escape`
state 0x03 merely resets the decoder to `Normal`, and in `BracketedEscape`
state it is appended to the accumulator with no other effect; in neither
case does the loop end. -/
theorem C4_etx_per_state (s : ReplState) :
    (s.input_state = InputState.Normal →
        step s 0x03 = { s with done := true }) ∧
    (s.input_state = InputState.Escape →
        step s 0x03 = { s with input_state := InputState.Normal,
                               escape_buffer := [] }) ∧
    (s.input_state = InputState.BracketedEscape →
        step s 0x03 = { s with escape_buffer := s.escape_buffer ++ [0x03] }) := by
  obtain ⟨line, cp, lines, lp, ist, eb, pr, dn⟩ := s
  refine ⟨?_, ?_, ?_⟩ <;> intro h <;> simp only at h <;> subst h <;> simp [step]

/-- Claim C4, witness for the amended theorem: 0x03 in the reachable
`BracketedEscape` state is merely accumulated. -/
theorem C4_etx_per_state_witness :
    step (run initState [0x1B, 0x5B]) 0x03 =
      { run initState [0x1B, 0x5B] with
          escape_buffer := (run initState [0x1B, 0x5B]).escape_buffer ++ [0x03] } :=
  (C4_etx_per_state (run initState [0x1B, 0x5B])).2.2 (by decide)

/-- Claim C6, counterexample.  Starting from buffer "a" (one character),
feeding the two bytes 0xC3 0xA9 of the two-byte UTF-8 encoding of
the character U+00E9 inserts nothing — each byte fails the single-byte
UTF-8 decode `str::from_utf8(&[c])` and is dropped — and the following
backspace then deletes the pre-existing `a`.  The character length after
the insert-then-delete pair is 0, not the pre-insertion length 1 required
by the claim. -/
theorem C6_twobyte_char_cex :
    (run initState [0x61]).line.length = 1 ∧
    (run initState [0x61, 0xC3, 0xA9]).line = [0x61] ∧
    (run initState [0x61, 0xC3, 0xA9, 0x7F]).line = [] ∧
    (run initState [0x61, 0xC3, 0xA9, 0x7F]).line.length
      ≠ (run initState [0x61]).line.length := by
  decide

/-- Claim C6, amended.  The decoder never reassembles multi-byte UTF-8
characters: every byte ≥ 0x80 (hence every byte of a two-byte encoded
character) received in `Normal` state is silently dropped, leaving the
state completely unchanged, and a backspace following the two bytes acts
on the unchanged buffer as an ordinary delete-backward.  No out-of-bounds
access occurs because no multi-byte character ever enters the buffer. -/
theorem C6_high_bytes_dropped (s : ReplState) (c₁ c₂ : Nat)
    (hstate : s.input_state = InputState.Normal) (hdone : s.done = false)
    (h₁ : 0x80 ≤ c₁) (h₂ : 0x80 ≤ c₂) :
    step s c₁ = s ∧ run s [c₁, c₂, 0x7F] = step s 0x7F := by
  have hdrop : ∀ c : Nat, 0x80 ≤ c → step s c = s := by
    intro c hc
    obtain ⟨line, cp, lines, lp, ist, eb, pr, dn⟩ := s
    simp only at hstate
    subst hstate
    have h27 : c ≠ 0x1B := by omega
    have h71 : ¬(c = 0x71 ∨ c = 0x03) := by omega
    have h0a : ¬(c = 0x0A ∨ c = 0x0D) := by omega
    have h08 : ¬(c = 0x08 ∨ c = 0x7F) := by omega
    have hdec : decodeSingleByte c = none := by
      unfold decodeSingleByte
      rw [if_neg (by omega)]
    simp [step, h27, h71, h0a, h08, hdec]
  have hd1 := hdrop c₁ h₁
  have hd2 := hdrop c₂ h₂
  refine ⟨hd1, ?_⟩
  simp [run, hdone, hd1, hd2]

/-- Claim C6, witness for the amended theorem: from the reachable state
with buffer "a", the two bytes of U+00E9 are dropped and the following
backspace is an ordinary delete-backward. -/
theorem C6_high_bytes_dropped_witness :
    step (run initState [0x61]) 0xC3 = run initState [0x61] ∧
    run (run initState [0x61]) [0xC3, 0xA9, 0x7F] = step (run initState [0x61]) 0x7F :=
  C6_high_bytes_dropped (run initState [0x61]) 0xC3 0xA9
    (by decide) (by decide) (by decide) (by decide)

/-- Claim C7.  The claim states that end-of-input ends the editor loop.
It does not: at end-of-input `tmanager.read` returns `Ok(0)`, the loop
discards the count (`Ok(n) => n`), and the freshly zeroed one-byte buffer
makes every iteration process byte 0x00, which no arm of any decoder state
turns into a loop exit — so however many iterations run at end-of-input,
the loop never terminates. -/
theorem C7_eof_never_terminates (s : ReplState) (n : Nat) (h : s.done = false) :
    (stepEof^[n] s).done = false := by
  induction n with
  | zero => simpa
  | succ n ih =>
      rw [Function.iterate_succ_apply']
      show (step (stepEof^[n] s) 0).done = false
      rw [step_preserves_done _ 0 (by omega) (by omega)]
      exact ih

/-- Claim C7, witness: from the initial state, five loop iterations at
end-of-input leave the loop still running. -/
theorem C7_eof_never_terminates_witness :
    initState.done = false ∧ (stepEof^[5] initState).done = false :=
  ⟨rfl, C7_eof_never_terminates initState 5 rfl⟩

/-- Claim C8.  For every byte sequence fed to the loop from the initial
empty state — which covers every sequence of insert, delete-backward,
cursor-move, history-navigation and commit operations — the cursor
invariant `cursor_pos ≤ character_length(line)` holds (the lower bound is
inherent to `Nat`); and a backspace byte (0x08 or 0x7F) arriving in
`Normal` state with `cursor_pos = 0` leaves the whole state, in particular
buffer and cursor, unchanged. -/
theorem C8_cursor_invariant :
    (∀ bs : List Nat, (run initState bs).cursor_pos ≤ (run initState bs).line.length) ∧
    (∀ s : ReplState, s.input_state = InputState.Normal → s.cursor_pos = 0 →
        step s 0x08 = s ∧ step s 0x7F = s) := by
  constructor
  · intro bs
    exact run_of_pred cursor_inv_step bs initState (by simp [initState])
  · intro s hstate hcp
    obtain ⟨line, cp, lines, lp, ist, eb, pr, dn⟩ := s
    simp only at hstate hcp
    subst hstate
    subst hcp
    constructor <;> simp [step]

/-- Claim C8, witness: the invariant after typing `a` then backspacing,
and the no-op backspace at cursor 0 in the initial state. -/
theorem C8_cursor_invariant_witness :
    (run initState [0x61, 0x7F]).cursor_pos ≤ (run initState [0x61, 0x7F]).line.length ∧
    step initState 0x08 = initState :=
  ⟨C8_cursor_invariant.1 [0x61, 0x7F], (C8_cursor_invariant.2 initState rfl rfl).1⟩

/-- Claim C9.  History prev (`ESC [ A`) is effective exactly when history
is non-empty and `lines_pos > 0`, in which case it decrements `lines_pos`
and loads that entry, resetting the cursor; next (`ESC [ B`) is effective
exactly when `lines_pos + 1 < length(history)` — in particular it is a
no-op at the last entry, with no transition to a blank new line — and the
committed-"foo"-then-"bar", Up, Up, Down scenario leaves the buffer equal
to "bar". -/
theorem C9_history_navigation :
    (∀ s : ReplState, s.input_state = InputState.BracketedEscape →
      step s 0x41 =
        if 0 < s.lines.length ∧ 0 < s.lines_pos then
          { s with line := s.lines.getD (s.lines_pos - 1) [],
                   lines_pos := s.lines_pos - 1, cursor_pos := 0,
                   input_state := InputState.Normal, escape_buffer := [] }
        else
          { s with input_state := InputState.Normal, escape_buffer := [] }) ∧
    (∀ s : ReplState, s.input_state = InputState.BracketedEscape →
      step s 0x42 =
        if s.lines_pos + 1 < s.lines.length then
          { s with lines_pos := s.lines_pos + 1,
                   line := s.lines.getD (s.lines_pos + 1) [], cursor_pos := 0,
                   input_state := InputState.Normal, escape_buffer := [] }
        else
          { s with input_state := InputState.Normal, escape_buffer := [] }) ∧
    (run initState [0x66, 0x6F, 0x6F, 0x0D, 0x62, 0x61, 0x72, 0x0D,
        0x1B, 0x5B, 0x41, 0x1B, 0x5B, 0x41, 0x1B, 0x5B, 0x42]).line
      = [0x62, 0x61, 0x72] := by
  refine ⟨?_, ?_, by decide⟩
  · intro s hstate
    obtain ⟨line, cp, lines, lp, ist, eb, pr, dn⟩ := s
    simp only at hstate
    subst hstate
    by_cases hg : 0 < lines.length ∧ 0 < lp <;> simp [step, hg]
  · intro s hstate
    obtain ⟨line, cp, lines, lp, ist, eb, pr, dn⟩ := s
    simp only at hstate
    subst hstate
    by_cases hg : lp + 1 < lines.length
    · have hg2 : 0 < lines.length ∧ lp + 1 < lines.length := by omega
      simp [step, hg, hg2]
    · have hg2 : ¬(0 < lines.length ∧ lp + 1 < lines.length) := by omega
      simp [step, hg, hg2]

/-- Claim C9, witness: history prev applied in the reachable
`BracketedEscape` state after committing "a" and "b". -/
theorem C9_history_navigation_witness :
    step (run initState [0x61, 0x0D, 0x62, 0x0D, 0x1B, 0x5B]) 0x41 =
      if 0 < (run initState [0x61, 0x0D, 0x62, 0x0D, 0x1B, 0x5B]).lines.length ∧
          0 < (run initState [0x61, 0x0D, 0x62, 0x0D, 0x1B, 0x5B]).lines_pos then
        { run initState [0x61, 0x0D, 0x62, 0x0D, 0x1B, 0x5B] with
            line := (run initState [0x61, 0x0D, 0x62, 0x0D, 0x1B, 0x5B]).lines.getD
              ((run initState [0x61, 0x0D, 0x62, 0x0D, 0x1B, 0x5B]).lines_pos - 1) [],
            lines_pos := (run initState [0x61, 0x0D, 0x62, 0x0D, 0x1B, 0x5B]).lines_pos - 1,
            cursor_pos := 0,
            input_state := InputState.Normal, escape_buffer := [] }
      else
        { run initState [0x61, 0x0D, 0x62, 0x0D, 0x1B, 0x5B] with
            input_state := InputState.Normal, escape_buffer := [] } :=
  C9_history_navigation.1 (run initState [0x61, 0x0D, 0x62, 0x0D, 0x1B, 0x5B]) (by decide)

/-- Claim C10.  Every commit increments the history browse position
`lines_pos` by exactly 1 (while history grows by one entry), rather than
resetting it to the new history length; committing "a", "b", pressing Up
(browsing at position 1) and committing "c" leaves `lines_pos = 2` while
history has 3 entries, exhibiting the non-reset; and nevertheless the
invariant `lines_pos ≤ length(history)` holds after every operation from
the initial state. -/
theorem C10_commit_increments_lines_pos :
    (∀ (s : ReplState) (c : Nat), s.input_state = InputState.Normal →
        c = 0x0A ∨ c = 0x0D →
        (step s c).lines_pos = s.lines_pos + 1 ∧
        (step s c).lines.length = s.lines.length + 1) ∧
    (∀ bs : List Nat, (run initState bs).lines_pos ≤ (run initState bs).lines.length) ∧
    ((run initState [0x61, 0x0D, 0x62, 0x0D, 0x1B, 0x5B, 0x41, 0x63, 0x0D]).lines_pos = 2 ∧
     (run initState [0x61, 0x0D, 0x62, 0x0D, 0x1B, 0x5B, 0x41, 0x63, 0x0D]).lines.length = 3) := by
  refine ⟨?_, ?_, by decide⟩
  · intro s c hstate hc
    obtain ⟨line, cp, lines, lp, ist, eb, pr, dn⟩ := s
    simp only at hstate
    subst hstate
    rcases hc with hc | hc <;> subst hc <;> simp [step]
  · intro bs
    exact run_of_pred lines_inv_step bs initState (by simp [initState])

/-- Claim C10, witness: the first commit from the initial state increments
`lines_pos` from 0 to 1 while history grows to one entry. -/
theorem C10_commit_increments_lines_pos_witness :
    (step initState 0x0D).lines_pos = initState.lines_pos + 1 ∧
    (step initState 0x0D).lines.length = initState.lines.length + 1 :=
  C10_commit_increments_lines_pos.1 initState 0x0D rfl (Or.inr rfl)

end RustCliDemo
